import Mathlib

/-
Verification of the secured-execution engine (Catcher), callback contract
system and retry orchestrator of the seviper error_handler package,
shallowly embedded from src/src/error_handler/{core,callback,decorator,result}.py.
-/

set_option maxHeartbeats 1000000
set_option maxRecDepth 100000

namespace Seviper

/-- Modelled from the spec: the module types.py defining the sentinels ERRORED and
UNSET is referenced by core.py and result.py but is not among the sources. The spec
describes a distinguished sentinel value meaning "value intentionally absent",
distinct from any valid value. Values are modelled as naturals plus the two
sentinels. -/
inductive EValue where
  | errored
  | unset
  | val (n : Nat)
deriving DecidableEq, Repr

/-- Exceptions are Python objects with identity, an optional attribute
__caught_by_catcher__ (a list of catcher ids, absent until first set), an optional
attribute __retry_count__ and an optional __cause__ chain. The cause chain is
represented structurally, so the base constructor is an exception without a cause
and withCause attaches one. Mutation of an exception object is modelled by
threading the updated value. -/
inductive Exc where
  | base (excId : Nat) (caughtBy : Option (List Nat)) (retryCount : Option Nat)
  | withCause (excId : Nat) (caughtBy : Option (List Nat)) (retryCount : Option Nat) (cause : Exc)
deriving DecidableEq, Repr

/-- Object identity of an exception. -/
def Exc.excId : Exc → Nat
  | .base i _ _ => i
  | .withCause i _ _ _ => i

/-- The __caught_by_catcher__ attribute; none models the attribute being absent. -/
def Exc.caughtBy : Exc → Option (List Nat)
  | .base _ cb _ => cb
  | .withCause _ cb _ _ => cb

/-- The __retry_count__ attribute; none models the attribute being absent. -/
def Exc.retryCount : Exc → Option Nat
  | .base _ _ rc => rc
  | .withCause _ _ rc _ => rc

/-- The __cause__ attribute. -/
def Exc.cause : Exc → Option Exc
  | .base _ _ _ => none
  | .withCause _ _ _ c => some c

/-- Overwrite the __caught_by_catcher__ attribute. -/
def Exc.setCaughtBy : Exc → List Nat → Exc
  | .base i _ rc, l => .base i (some l) rc
  | .withCause i _ rc c, l => .withCause i (some l) rc c

/-- Overwrite the __retry_count__ attribute. -/
def Exc.setRetryCount : Exc → Nat → Exc
  | .base i cb _, n => .base i cb (some n)
  | .withCause i cb _ c, n => .withCause i cb (some n) c

/-- The list of exception ids along the cause chain, starting with the
exception itself. -/
def chainIds : Exc → List Nat
  | .base i _ _ => [i]
  | .withCause i _ _ c => i :: chainIds c

/-- Outcome of invoking a callback or running a unit of work: it either returns
a value or raises an exception. -/
inductive CBOutcome where
  | ret (v : EValue)
  | raiseExc (e : Exc)
deriving DecidableEq, Repr

/-- The Catcher configuration of core.py: up to three callbacks, the
on_error_return_always default and the suppress_recalling_on_error flag.
Callback behaviour is abstracted as a function from the dispatched argument to
a CBOutcome; the finalize callback receives no interesting argument. -/
structure Catcher where
  catcherId : Nat
  onSuccess : Option (EValue → CBOutcome)
  onError : Option (Exc → CBOutcome)
  onFinalize : Option CBOutcome
  onErrorReturnAlways : EValue
  suppressRecallingOnError : Bool

/-- The two-variant result model of result.py: PositiveResult carries the
produced value, NegativeResult carries the default value and the error. -/
inductive ResultType where
  | positive (result : EValue)
  | negative (result : EValue) (error : Exc)
deriving DecidableEq, Repr

/-- Outcome of a method that either returns a ResultType or raises. -/
inductive Outcome where
  | ok (r : ResultType)
  | exc (e : Exc)
deriving DecidableEq, Repr

/-- Observable dispatch events of one Catcher execution, in order. An event is
recorded whenever the corresponding observer is invoked, whether or not the
observer itself then raises. -/
inductive Event where
  | successCalled (v : EValue)
  | errorCalled (e : Exc)
  | finalizeCalled
deriving DecidableEq, Repr

/-- Catcher.mark_exception of core.py: create the __caught_by_catcher__ list if
absent, then append this catcher. -/
def markException (c : Catcher) (e : Exc) : Exc :=
  e.setCaughtBy ((e.caughtBy.getD []) ++ [c.catcherId])

/-- Catcher._ensure_exception_in_cause_propagation of core.py: walk the cause
chain of the base error; stop if the cause to insert is found (identity check),
otherwise attach it at the end of the chain. -/
def ensureCause : Exc → Exc → Exc
  | .base i cb rc, cause =>
      if i = cause.excId then .base i cb rc
      else .withCause i cb rc cause
  | .withCause i cb rc c, cause =>
      if i = cause.excId then .withCause i cb rc c
      else .withCause i cb rc (ensureCause c cause)

/-- Catcher.handle_error_case of core.py: remember whether the error was caught
before, mark it, dispatch the error callback unless it is missing or suppression
applies, re-raise a callback error after inserting the original error into its
cause chain, and otherwise return NegativeResult(error, on_error_return_always). -/
def handleErrorCase (c : Catcher) (e : Exc) : Outcome × List Event :=
  match c.onError with
  | none => (.ok (.negative c.onErrorReturnAlways (markException c e)), [])
  | some g =>
    if e.caughtBy.isSome && c.suppressRecallingOnError then
      (.ok (.negative c.onErrorReturnAlways (markException c e)), [])
    else
      match g (markException c e) with
      | .ret _ =>
          (.ok (.negative c.onErrorReturnAlways (markException c e)),
           [.errorCalled (markException c e)])
      | .raiseExc e2 =>
          (.exc (ensureCause e2 (markException c e)),
           [.errorCalled (markException c e)])

/-- Catcher.handle_success_case of core.py: dispatch the success callback if
registered and return PositiveResult(result); a callback error propagates. -/
def handleSuccessCase (c : Catcher) (v : EValue) : Outcome × List Event :=
  match c.onSuccess with
  | none => (.ok (.positive v), [])
  | some g =>
    match g v with
    | .ret _ => (.ok (.positive v), [.successCalled v])
    | .raiseExc e => (.exc e, [.successCalled v])

/-- The finally block of the secured methods: Catcher.handle_finalize_case
dispatches the finalize callback if registered; per Python finally semantics an
exception raised there replaces the pending outcome. -/
def handleFinalize (c : Catcher) (body : Outcome × List Event) : Outcome × List Event :=
  match c.onFinalize with
  | none => body
  | some (.ret _) => (body.1, body.2 ++ [.finalizeCalled])
  | some (.raiseExc ef) => (.exc ef, body.2 ++ [.finalizeCalled])

/-- Catcher.secure_call of core.py: run the unit of work inside try; on a value
run handle_success_case still inside the try, so an exception of the success
callback falls into the except branch and is handled as an error; on an
exception run handle_error_case; the finally block always runs
handle_finalize_case. The signature auto-set steps only mutate expected
signatures of callbacks and are absorbed into the abstract callback behaviour. -/
def callBody (c : Catcher) (work : CBOutcome) : Outcome × List Event :=
  match work with
  | .ret v =>
    match handleSuccessCase c v with
    | (.ok r, evs) => (.ok r, evs)
    | (.exc e, evs) =>
      let he := handleErrorCase c e
      (he.1, evs ++ he.2)
  | .raiseExc e => handleErrorCase c e

/-- Catcher.secure_call of core.py: the try and except blocks (callBody)
followed by the finally block. -/
def secureCall (c : Catcher) (work : CBOutcome) : Outcome × List Event :=
  handleFinalize c (callBody c work)

/-- Catcher.secure_await of core.py: identical control flow to secure_call with
the unit of work being an awaited value instead of a call; the model abstracts
the suspension point away. -/
def secureAwait (c : Catcher) (work : CBOutcome) : Outcome × List Event :=
  secureCall c work

/-- Catcher.secure_call_coroutine of core.py: identical control flow to
secure_call with an awaited coroutine call as the unit of work. -/
def secureCallCoroutine (c : Catcher) (work : CBOutcome) : Outcome × List Event :=
  secureCall c work

/-- Catcher.secure_context of core.py: the context manager. The body yields; on
normal completion the success callback is invoked directly with no arguments
inside the try, so a success callback exception falls into the except branch and
goes through handle_error_case; on a body exception handle_error_case runs and
its returned result is discarded, so the error does not propagate unless the
error callback raised; the finally block runs handle_finalize_case. The outcome
is the propagating exception, if any. -/
def contextBody (c : Catcher) (body : CBOutcome) : Option Exc × List Event :=
  match body with
  | .ret _ =>
    match c.onSuccess with
    | none => (none, [])
    | some g =>
      match g EValue.unset with
      | .ret _ => (none, [Event.successCalled EValue.unset])
      | .raiseExc e =>
        match handleErrorCase c e with
        | (.ok _, evs) => (none, Event.successCalled EValue.unset :: evs)
        | (.exc e2, evs) => (some e2, Event.successCalled EValue.unset :: evs)
  | .raiseExc e =>
    match handleErrorCase c e with
    | (.ok _, evs) => (none, evs)
    | (.exc e2, evs) => (some e2, evs)

/-- Catcher.secure_context of core.py: the try and except blocks (contextBody)
followed by the finally block. -/
def secureContext (c : Catcher) (body : CBOutcome) : Option Exc × List Event :=
  match c.onFinalize with
  | none => contextBody c body
  | some (.ret _) =>
      ((contextBody c body).1, (contextBody c body).2 ++ [Event.finalizeCalled])
  | some (.raiseExc ef) =>
      (some ef, (contextBody c body).2 ++ [Event.finalizeCalled])

/-- Predicate selecting finalize events. -/
def isFinalizeEv : Event → Bool
  | .finalizeCalled => true
  | _ => false

/-- Predicate selecting error-callback invocation events. -/
def isErrorEv : Event → Bool
  | .errorCalled _ => true
  | _ => false

/-- Number of finalize invocations in a trace. -/
def finalizeCount (evs : List Event) : Nat := evs.countP isFinalizeEv

/-- Number of error-callback invocations in a trace. -/
def errorCallCount (evs : List Event) : Nat := evs.countP isErrorEv

/-- Modelled from the spec: Catcher.handle_result_and_call_callbacks is called by
decorator.py but is absent from core.py in the sources. Per spec section 4.5 it
dispatches the decision callback (the error observer of the per-attempt Catcher)
with the error and the attempt index and reports the callback return value in
the callback summary, which the retry loop reads. -/
def dispatchDecision (dec : Exc → Nat → Bool) (e : Exc) (i : Nat) : Bool :=
  dec e i

/-- Observable events of the retry loop of retry_on_error in decorator.py. -/
inductive RetryEvent where
  | attemptMade (i : Nat)
  | decisionAsked (i : Nat) (answer : Bool)
  | slept (i : Nat)
deriving DecidableEq, Repr

/-- Outcome of the retry loop: return of (value, attempt index); raising the
original error of the aborted attempt with __retry_count__ set (the RetryAborted
case); or raising the RuntimeError with the too-many-retries message and
__retry_count__ = max_retries. -/
inductive RetryOutcome where
  | success (v : EValue) (attemptIndex : Nat)
  | abortRaise (e : Exc)
  | tooManyRetries (count : Nat)
deriving DecidableEq, Repr

/-- The loop body of retry_function in retry_on_error of decorator.py: for each
attempt index run the unit of work through the per-attempt Catcher; on a
positive result return (value, attempt index); on a negative result consult the
decision callback with the attempt index; on true sleep for the backoff time
and continue; on false set __retry_count__ on the error and raise it. The first
argument counts the remaining attempts, the second is the current attempt
index; the unit of work is given per attempt index since each attempt raises
its own fresh exception object. -/
def retryFrom (work : Nat → CBOutcome) (dec : Exc → Nat → Bool) :
    Nat → Nat → RetryOutcome × List RetryEvent
  | 0, i => (.tooManyRetries i, [])
  | r + 1, i =>
    match work i with
    | .ret v => (.success v i, [.attemptMade i])
    | .raiseExc e =>
      if dispatchDecision dec e i then
        let rest := retryFrom work dec r (i + 1)
        (rest.1, .attemptMade i :: .decisionAsked i true :: .slept i :: rest.2)
      else
        (.abortRaise (e.setRetryCount i), [.attemptMade i, .decisionAsked i false])

/-- retry_function of retry_on_error in decorator.py: iterate attempt indices
0 .. max_retries - 1; when the loop exhausts, raise the too-many-retries
RuntimeError carrying __retry_count__ = max_retries. -/
def retryLoop (maxRetries : Nat) (work : Nat → CBOutcome) (dec : Exc → Nat → Bool) :
    RetryOutcome × List RetryEvent :=
  retryFrom work dec maxRetries 0

/-- Python list.insert semantics: insert at the index, shifting later elements
right; an index beyond the end appends. -/
def pyInsert (l : List EValue) (i : Nat) (v : EValue) : List EValue :=
  l.take i ++ v :: l.drop i

/-- Python dict.update semantics on the keyword-argument dictionary: a value
injected under an existing key overwrites it, other keys are kept. -/
def pyUpdate (kw inj : List (String × EValue)) : List (String × EValue) :=
  kw.filter (fun p => !((inj.map Prod.fst).contains p.1)) ++ inj

/-- inspect.Signature.bind of the Python standard library, restricted to the
shapes the package uses: a list of POSITIONAL_OR_KEYWORD parameters without
defaults. Binding fails on extra positional arguments, on a keyword argument
colliding with a positionally filled parameter, on an unexpected keyword
argument and on a missing parameter; on success the bound arguments are the
values in parameter order. -/
def bindSig (params : List String) (args : List EValue)
    (kwargs : List (String × EValue)) : Option (List EValue) :=
  if params.length < args.length then none
  else if kwargs.any (fun kv => (params.take args.length).contains kv.1) then none
  else if kwargs.any (fun kv => !(params.contains kv.1)) then none
  else if (params.drop args.length).any (fun p => (kwargs.lookup p).isNone) then none
  else some (args ++ (params.drop args.length).filterMap (fun p => kwargs.lookup p))

/-- The Callback of callback.py: the name of the underlying function, the
expected signature (the contract, mutable via the auto-set steps), the actual
signature of the underlying function, and the recorded positional and named
injections. Signatures are abstracted to their parameter name lists. -/
structure CallbackM where
  name : String
  expectedParams : List String
  actualParams : List String
  argsToInject : List (Nat × EValue)
  kwargsToInject : List (String × EValue)
deriving DecidableEq, Repr

/-- Result of one callback invocation: the underlying function is called with
the bound arguments, or a TypeError with the mismatch message is raised and the
underlying function is not called. -/
inductive CallResult where
  | called (boundArgs : List EValue)
  | mismatch (msg : String)
deriving DecidableEq, Repr

/-- Rendering of a signature as in str(inspect.Signature), restricted to the
parameter names. -/
def sigStr (params : List String) : String :=
  "(" ++ String.intercalate ", " params ++ ")"

/-- First fragment of the TypeError message of Callback.__call__. -/
def mismatchMsgPre : String := "Arguments do not match signature of callback \u0027"

/-- Middle fragment of the TypeError message of Callback.__call__. -/
def mismatchMsgMid : String := "\u0027. Callback function must match signature: "

/-- The TypeError message raised by Callback.__call__ of callback.py: it names
the callback twice and renders the EXPECTED signature; the actual signature does
not occur in it. -/
def mismatchMsg (cb : CallbackM) : String :=
  mismatchMsgPre ++ cb.name ++ mismatchMsgMid ++ cb.name ++ sigStr cb.expectedParams

/-- The first half of Callback.__call__ of callback.py: the positional
arguments after splicing the recorded positional injections in recorded order
via Python list.insert. -/
def assembledArgs (cb : CallbackM) (args : List EValue) : List EValue :=
  cb.argsToInject.foldl (fun a iv => pyInsert a iv.1 iv.2) args

/-- The keyword arguments after the injected named values were merged in,
overwriting same-named entries. -/
def assembledKwargs (cb : CallbackM) (kwargs : List (String × EValue)) :
    List (String × EValue) :=
  pyUpdate kwargs cb.kwargsToInject

/-- Callback.__call__ of callback.py: assemble the arguments, bind them
against the ACTUAL signature of the underlying function, and on bind failure
raise the TypeError carrying the mismatch message without calling the
function; on success call the underlying function with the bound arguments. -/
def callbackCall (cb : CallbackM) (args : List EValue)
    (kwargs : List (String × EValue)) : CallResult :=
  match bindSig cb.actualParams (assembledArgs cb args) (assembledKwargs cb kwargs) with
  | some bound => .called bound
  | none => .mismatch (mismatchMsg cb)

/-- Boolean test whether the first character list leads the second. -/
def listLeads : List Char → List Char → Bool
  | [], _ => true
  | _ :: _, [] => false
  | a :: as, b :: bs => a == b && listLeads as bs

/-- Boolean substring test: the needle occurs contiguously in the hay. -/
def strHasSub (hay needle : String) : Bool :=
  (List.range (hay.toList.length + 1)).any
    (fun i => listLeads needle.toList (hay.toList.drop i))

/- Helper lemmas about the embedded operations. -/

/-- Marking never changes the identity of the exception object. -/
theorem excId_markException (c : Catcher) (e : Exc) :
    (markException c e).excId = e.excId := by
  cases e <;> rfl

/-- Marking an unmarked exception makes its handled-mark the singleton list of
this catcher. -/
theorem caughtBy_markException_none (c : Catcher) (e : Exc) (h : e.caughtBy = none) :
    (markException c e).caughtBy = some [c.catcherId] := by
  cases e <;> simp_all [markException, Exc.caughtBy, Exc.setCaughtBy]

/-- Marking a marked exception appends this catcher to the handled-mark. -/
theorem caughtBy_markException_some (c : Catcher) (e : Exc) (l : List Nat)
    (h : e.caughtBy = some l) :
    (markException c e).caughtBy = some (l ++ [c.catcherId]) := by
  cases e <;> simp_all [markException, Exc.caughtBy, Exc.setCaughtBy]

/-- Inserting an exception into its own cause chain is the identity. -/
theorem ensureCause_self (x : Exc) : ensureCause x x = x := by
  cases x <;> simp [ensureCause, Exc.excId]

/-- The finalize counter distributes over appended traces. -/
theorem finalizeCount_append (a b : List Event) :
    finalizeCount (a ++ b) = finalizeCount a + finalizeCount b :=
  List.countP_append _ _ _

/-- handle_error_case never invokes the finalize callback. -/
theorem finalizeCount_handleErrorCase (c : Catcher) (e : Exc) :
    finalizeCount (handleErrorCase c e).2 = 0 := by
  unfold handleErrorCase
  cases c.onError with
  | none => rfl
  | some g =>
    cases hb : e.caughtBy.isSome && c.suppressRecallingOnError
    · cases hg : g (markException c e) <;>
        simp [hb, hg, finalizeCount, isFinalizeEv]
    · simp [hb, finalizeCount]

/-- handle_success_case never invokes the finalize callback. -/
theorem finalizeCount_handleSuccessCase (c : Catcher) (v : EValue) :
    finalizeCount (handleSuccessCase c v).2 = 0 := by
  unfold handleSuccessCase
  cases c.onSuccess with
  | none => rfl
  | some g => cases hg : g v <;> simp [hg, finalizeCount, isFinalizeEv]

/-- The try and except blocks of secure_call never invoke the finalize
callback. -/
theorem finalizeCount_callBody (c : Catcher) (w : CBOutcome) :
    finalizeCount (callBody c w).2 = 0 := by
  unfold callBody
  cases w with
  | raiseExc e => exact finalizeCount_handleErrorCase c e
  | ret v =>
    rcases hsc : handleSuccessCase c v with ⟨o, evs⟩
    have h0 : finalizeCount evs = 0 := by
      have h := finalizeCount_handleSuccessCase c v
      rw [hsc] at h; exact h
    cases o with
    | ok r => simpa [hsc] using h0
    | exc e =>
      simp only [hsc, finalizeCount_append]
      rw [h0, finalizeCount_handleErrorCase]

/-- The try and except blocks of secure_context never invoke the finalize
callback. -/
theorem finalizeCount_contextBody (c : Catcher) (w : CBOutcome) :
    finalizeCount (contextBody c w).2 = 0 := by
  unfold contextBody
  cases w with
  | raiseExc e =>
    rcases hec : handleErrorCase c e with ⟨o, evs⟩
    have h0 : finalizeCount evs = 0 := by
      have h := finalizeCount_handleErrorCase c e
      rw [hec] at h; exact h
    cases o <;> simpa [hec] using h0
  | ret v =>
    cases c.onSuccess with
    | none => rfl
    | some g =>
      cases hg : g EValue.unset with
      | ret u => simp [hg, finalizeCount, isFinalizeEv]
      | raiseExc e =>
        rcases hec : handleErrorCase c e with ⟨o, evs⟩
        have h0 : finalizeCount evs = 0 := by
          have h := finalizeCount_handleErrorCase c e
          rw [hec] at h; exact h
        cases o <;>
          simp [hg, hec, finalizeCount, isFinalizeEv, List.countP_cons] at h0 ⊢ <;>
          exact h0

/-- Claim C1: for every execution of a Catcher through secure_call,
secure_await, secure_call_coroutine or secure_context in which a finalize
observer is registered, the finalize observer is invoked exactly once, on every
exit path: when the unit of work returns normally, when it raises, and when the
success or error observer itself raises during dispatch (the unit of work and
all observer behaviours are universally quantified). -/
theorem finalize_always_invoked_once (c : Catcher) (w : CBOutcome) (f : CBOutcome)
    (hf : c.onFinalize = some f) :
    finalizeCount (secureCall c w).2 = 1 ∧
    finalizeCount (secureAwait c w).2 = 1 ∧
    finalizeCount (secureCallCoroutine c w).2 = 1 ∧
    finalizeCount (secureContext c w).2 = 1 := by
  have hcall : finalizeCount (secureCall c w).2 = 1 := by
    unfold secureCall handleFinalize
    rw [hf]
    cases f with
    | ret v =>
      show finalizeCount ((callBody c w).2 ++ [Event.finalizeCalled]) = 1
      rw [finalizeCount_append, finalizeCount_callBody]
      rfl
    | raiseExc e =>
      show finalizeCount ((callBody c w).2 ++ [Event.finalizeCalled]) = 1
      rw [finalizeCount_append, finalizeCount_callBody]
      rfl
  have hctx : finalizeCount (secureContext c w).2 = 1 := by
    unfold secureContext
    rw [hf]
    cases f with
    | ret v =>
      show finalizeCount ((contextBody c w).2 ++ [Event.finalizeCalled]) = 1
      rw [finalizeCount_append, finalizeCount_contextBody]
      rfl
    | raiseExc e =>
      show finalizeCount ((contextBody c w).2 ++ [Event.finalizeCalled]) = 1
      rw [finalizeCount_append, finalizeCount_contextBody]
      rfl
  exact ⟨hcall, hcall, hcall, hctx⟩

/-- Witness for C1 at a concrete catcher whose unit of work raises and whose
error observer raises as well. -/
theorem finalize_always_invoked_once_witness :
    finalizeCount
      (secureCall
        { catcherId := 0, onSuccess := none,
          onError := some (fun x => CBOutcome.raiseExc x),
          onFinalize := some (CBOutcome.ret EValue.unset),
          onErrorReturnAlways := EValue.errored,
          suppressRecallingOnError := true }
        (CBOutcome.raiseExc (Exc.base 7 none none))).2 = 1 :=
  (finalize_always_invoked_once _ _ _ rfl).1

/-- Claim C2 counterexample: a secured call whose unit of work raises and whose
error observer returns normally does NOT re-raise the original error to the
caller: secure_call returns the Negative result (the Outcome.ok constructor,
not Outcome.exc), so nothing propagates past the Catcher boundary by default. -/
theorem error_not_reraised_counterexample :
    secureCall
      { catcherId := 0, onSuccess := none,
        onError := some (fun _ => CBOutcome.ret EValue.unset),
        onFinalize := none, onErrorReturnAlways := EValue.errored,
        suppressRecallingOnError := true }
      (CBOutcome.raiseExc (Exc.base 7 none none)) =
      (Outcome.ok (ResultType.negative EValue.errored (Exc.base 7 (some [0]) none)),
       [Event.errorCalled (Exc.base 7 (some [0]) none)]) := by
  rfl

/-- Claim C2 amended: for a unit of work raising E under a secured call, the
original error E propagates past the Catcher boundary only when the error
observer itself raises during dispatch; when the error observer returns
normally, secure_call returns the Negative result instead of raising, and the
configured on_error_return_always value only determines the value field of that
Negative result, never whether E propagates. -/
theorem error_propagates_only_if_observer_raises (c : Catcher) (e : Exc)
    (u : EValue) (g : Exc → CBOutcome)
    (he : c.onError = some g) (hf : c.onFinalize = none)
    (hu : e.caughtBy = none) :
    (g (markException c e) = CBOutcome.ret u →
      secureCall c (CBOutcome.raiseExc e) =
        (Outcome.ok (ResultType.negative c.onErrorReturnAlways (markException c e)),
         [Event.errorCalled (markException c e)])) ∧
    (∀ e2, g (markException c e) = CBOutcome.raiseExc e2 →
      secureCall c (CBOutcome.raiseExc e) =
        (Outcome.exc (ensureCause e2 (markException c e)),
         [Event.errorCalled (markException c e)])) := by
  constructor
  · intro hg
    simp [secureCall, callBody, handleErrorCase, handleFinalize, he, hf, hu, hg]
  · intro e2 hg
    simp [secureCall, callBody, handleErrorCase, handleFinalize, he, hf, hu, hg]

/-- Witness for the amended C2: a concrete catcher whose error observer raises
a fresh exception makes secure_call propagate that exception. -/
theorem error_propagates_only_if_observer_raises_witness :
    ({ catcherId := 0, onSuccess := none,
       onError := some (fun _ => CBOutcome.raiseExc (Exc.base 9 none none)),
       onFinalize := none, onErrorReturnAlways := EValue.errored,
       suppressRecallingOnError := true } : Catcher).onError =
      some (fun _ => CBOutcome.raiseExc (Exc.base 9 none none)) ∧
    (Exc.base 7 none none).caughtBy = none ∧
    secureCall
      { catcherId := 0, onSuccess := none,
        onError := some (fun _ => CBOutcome.raiseExc (Exc.base 9 none none)),
        onFinalize := none, onErrorReturnAlways := EValue.errored,
        suppressRecallingOnError := true }
      (CBOutcome.raiseExc (Exc.base 7 none none)) =
      (Outcome.exc (Exc.withCause 9 none none (Exc.base 7 (some [0]) none)),
       [Event.errorCalled (Exc.base 7 (some [0]) none)]) :=
  ⟨rfl, rfl,
    (error_propagates_only_if_observer_raises
      { catcherId := 0, onSuccess := none,
        onError := some (fun _ => CBOutcome.raiseExc (Exc.base 9 none none)),
        onFinalize := none, onErrorReturnAlways := EValue.errored,
        suppressRecallingOnError := true }
      (Exc.base 7 none none) EValue.unset
      (fun _ => CBOutcome.raiseExc (Exc.base 9 none none))
      rfl rfl rfl).2 (Exc.base 9 none none) rfl⟩

/-- Claim C3: for nested catchers, an inner catcher with a re-raising error
observer processing a fresh error E invokes its error observer exactly once and
leaves the handled-mark listing exactly the inner catcher; an outer catcher
processing the propagated marked E skips its error observer entirely when its
suppression flag is set, and invokes it a second time (with the same error
object, now also marked by the outer catcher) when its suppression flag is
cleared. -/
theorem nested_catcher_suppression (cIn cOut : Catcher) (e : Exc)
    (gOut : Exc → CBOutcome)
    (hIn : cIn.onError = some (fun x => CBOutcome.raiseExc x))
    (hInF : cIn.onFinalize = none) (hOutF : cOut.onFinalize = none)
    (hOut : cOut.onError = some gOut)
    (hu : e.caughtBy = none) :
    secureCall cIn (CBOutcome.raiseExc e) =
      (Outcome.exc (markException cIn e),
       [Event.errorCalled (markException cIn e)]) ∧
    (markException cIn e).caughtBy = some [cIn.catcherId] ∧
    (cOut.suppressRecallingOnError = true →
      (secureCall cOut (CBOutcome.raiseExc (markException cIn e))).2 = []) ∧
    (cOut.suppressRecallingOnError = false →
      (secureCall cOut (CBOutcome.raiseExc (markException cIn e))).2 =
        [Event.errorCalled (markException cOut (markException cIn e))] ∧
      (markException cOut (markException cIn e)).caughtBy =
        some [cIn.catcherId, cOut.catcherId]) := by
  have hmark : (markException cIn e).caughtBy = some [cIn.catcherId] :=
    caughtBy_markException_none cIn e hu
  refine ⟨?_, hmark, ?_, ?_⟩
  · simp [secureCall, callBody, handleErrorCase, handleFinalize, hIn, hInF, hu,
      ensureCause_self]
  · intro hsup
    simp [secureCall, callBody, handleErrorCase, handleFinalize, hOut, hOutF,
      hmark, hsup]
  · intro hsup
    refine ⟨?_, ?_⟩
    · cases hg : gOut (markException cOut (markException cIn e)) <;>
        simp [secureCall, callBody, handleErrorCase, handleFinalize, hOut,
          hOutF, hmark, hsup, hg]
    · simpa using caughtBy_markException_some cOut _ _ hmark

/-- Witness for C3 at concrete inner and outer catchers with a fresh error. -/
theorem nested_catcher_suppression_witness :
    (Exc.base 5 none none).caughtBy = none ∧
    secureCall
      { catcherId := 1, onSuccess := none,
        onError := some (fun x => CBOutcome.raiseExc x),
        onFinalize := none, onErrorReturnAlways := EValue.errored,
        suppressRecallingOnError := true }
      (CBOutcome.raiseExc (Exc.base 5 none none)) =
      (Outcome.exc (Exc.base 5 (some [1]) none),
       [Event.errorCalled (Exc.base 5 (some [1]) none)]) :=
  ⟨rfl,
    (nested_catcher_suppression
      { catcherId := 1, onSuccess := none,
        onError := some (fun x => CBOutcome.raiseExc x),
        onFinalize := none, onErrorReturnAlways := EValue.errored,
        suppressRecallingOnError := true }
      { catcherId := 2, onSuccess := none,
        onError := some (fun _ => CBOutcome.ret EValue.unset),
        onFinalize := none, onErrorReturnAlways := EValue.errored,
        suppressRecallingOnError := true }
      (Exc.base 5 none none) (fun _ => CBOutcome.ret EValue.unset)
      rfl rfl rfl rfl rfl).1⟩

/-- Claim C4: for a unit of work raising E, whenever secure_call produces a
returned result at all (the error observer, if dispatched, returns normally and
the finalize observer, if registered, returns normally), that result is a
Negative result whose error field is the marked original error object (marking
preserves the object identity) and whose value field is the configured
on_error_return_always. -/
theorem negative_result_identity_and_default (c : Catcher) (e : Exc)
    (hg : ∀ g, c.onError = some g → ∃ u, g (markException c e) = CBOutcome.ret u)
    (hf : ∀ f, c.onFinalize = some f → ∃ u, f = CBOutcome.ret u) :
    (secureCall c (CBOutcome.raiseExc e)).1 =
      Outcome.ok (ResultType.negative c.onErrorReturnAlways (markException c e)) ∧
    (markException c e).excId = e.excId := by
  refine ⟨?_, excId_markException c e⟩
  have hbody : (callBody c (CBOutcome.raiseExc e)).1 =
      Outcome.ok (ResultType.negative c.onErrorReturnAlways (markException c e)) := by
    show (handleErrorCase c e).1 = _
    unfold handleErrorCase
    cases hoe : c.onError with
    | none => rfl
    | some g =>
      cases hb : e.caughtBy.isSome && c.suppressRecallingOnError
      · obtain ⟨u, hu⟩ := hg g hoe
        simp [hu]
      · simp
  unfold secureCall handleFinalize
  cases hof : c.onFinalize with
  | none => exact hbody
  | some f =>
    obtain ⟨u, hu⟩ := hf f hof
    subst hu
    exact hbody

/-- Witness for C4 at a concrete catcher with an error observer and a custom
default-on-error value. -/
theorem negative_result_identity_and_default_witness :
    (secureCall
      { catcherId := 3, onSuccess := none,
        onError := some (fun _ => CBOutcome.ret EValue.unset),
        onFinalize := some (CBOutcome.ret EValue.unset),
        onErrorReturnAlways := EValue.val 42,
        suppressRecallingOnError := true }
      (CBOutcome.raiseExc (Exc.base 8 none none))).1 =
      Outcome.ok (ResultType.negative (EValue.val 42) (Exc.base 8 (some [3]) none)) ∧
    (Exc.base 8 (some [3]) none).excId = (Exc.base 8 none none).excId :=
  negative_result_identity_and_default
    { catcherId := 3, onSuccess := none,
      onError := some (fun _ => CBOutcome.ret EValue.unset),
      onFinalize := some (CBOutcome.ret EValue.unset),
      onErrorReturnAlways := EValue.val 42,
      suppressRecallingOnError := true }
    (Exc.base 8 none none)
    (fun g hg => ⟨EValue.unset, by injection hg with h2; rw [← h2]⟩)
    (fun f hf => ⟨EValue.unset, by injection hf with h2; rw [← h2]⟩)

/-- If an exception has no cause and is not the one to insert, the inserted
exception becomes its direct cause. -/
theorem ensureCause_cause_none (b x : Exc) (hb : b.cause = none)
    (hne : b.excId ≠ x.excId) :
    (ensureCause b x).cause = some x := by
  cases b with
  | base i cb rc => simp_all [ensureCause, Exc.cause, Exc.excId]
  | withCause i cb rc c => simp [Exc.cause] at hb

/-- If the exception to insert does not already occur in the cause chain, it is
attached at the end of the chain and every existing link is preserved. -/
theorem chainIds_ensureCause (b x : Exc) (h : x.excId ∉ chainIds b) :
    chainIds (ensureCause b x) = chainIds b ++ chainIds x := by
  induction b with
  | base i cb rc =>
    simp only [chainIds, List.mem_singleton] at h
    have hne : i ≠ x.excId := fun hh => h hh.symm
    simp [ensureCause, hne, chainIds]
  | withCause i cb rc c ih =>
    simp only [chainIds, List.mem_cons] at h
    push_neg at h
    obtain ⟨h1, h2⟩ := h
    have hne : i ≠ x.excId := fun hh => h1 hh.symm
    simp [ensureCause, hne, chainIds, ih h2]

/-- Claim C8: if the error observer raises a new error E2 while handling the
unit-of-work error E, then E2 (with E ensured in its cause chain) is the error
that continues to the finalize phase of secure_call; if E2 has no cause, the
marked E becomes its direct cause, and if E2 already has an unrelated cause
chain (one not containing E), E is attached at the end of that chain with every
existing link preserved. -/
theorem observer_error_cause_chain (c : Catcher) (e e2 : Exc)
    (g : Exc → CBOutcome) (u : EValue)
    (he : c.onError = some g) (hu : e.caughtBy = none)
    (hg : g (markException c e) = CBOutcome.raiseExc e2)
    (hf : c.onFinalize = some (CBOutcome.ret u)) :
    secureCall c (CBOutcome.raiseExc e) =
      (Outcome.exc (ensureCause e2 (markException c e)),
       [Event.errorCalled (markException c e), Event.finalizeCalled]) ∧
    (e2.cause = none → e2.excId ≠ (markException c e).excId →
      (ensureCause e2 (markException c e)).cause = some (markException c e)) ∧
    ((markException c e).excId ∉ chainIds e2 →
      chainIds (ensureCause e2 (markException c e)) =
        chainIds e2 ++ chainIds (markException c e)) := by
  refine ⟨?_, fun h1 h2 => ensureCause_cause_none _ _ h1 h2,
    fun h => chainIds_ensureCause _ _ h⟩
  simp [secureCall, callBody, handleErrorCase, handleFinalize, he, hu, hg, hf]

/-- Witness for C8 at a concrete catcher whose error observer raises a fresh
exception while handling the unit-of-work error. -/
theorem observer_error_cause_chain_witness :
    secureCall
      { catcherId := 4, onSuccess := none,
        onError := some (fun _ => CBOutcome.raiseExc (Exc.base 11 none none)),
        onFinalize := some (CBOutcome.ret EValue.unset),
        onErrorReturnAlways := EValue.errored,
        suppressRecallingOnError := true }
      (CBOutcome.raiseExc (Exc.base 10 none none)) =
      (Outcome.exc (Exc.withCause 11 none none (Exc.base 10 (some [4]) none)),
       [Event.errorCalled (Exc.base 10 (some [4]) none), Event.finalizeCalled]) :=
  (observer_error_cause_chain
    { catcherId := 4, onSuccess := none,
      onError := some (fun _ => CBOutcome.raiseExc (Exc.base 11 none none)),
      onFinalize := some (CBOutcome.ret EValue.unset),
      onErrorReturnAlways := EValue.errored,
      suppressRecallingOnError := true }
    (Exc.base 10 none none) (Exc.base 11 none none)
    (fun _ => CBOutcome.raiseExc (Exc.base 11 none none)) EValue.unset
    rfl rfl rfl rfl).1

/-- Claim C10: in secure_context, when the scope body completes normally and
the registered success observer raises during dispatch, the exception goes
through handle_error_case exactly like a unit-of-work error: the error observer
is dispatched with the marked exception (subject to marking and suppression),
the exception does not propagate to the caller when the error observer returns
normally, and the finalize observer still runs exactly once afterwards. -/
theorem context_success_observer_routed_to_error (c : Catcher) (bv u u2 : EValue)
    (sg : EValue → CBOutcome) (eg : Exc → CBOutcome) (e : Exc)
    (hs : c.onSuccess = some sg) (hsr : sg EValue.unset = CBOutcome.raiseExc e)
    (he : c.onError = some eg) (hu : e.caughtBy = none)
    (her : eg (markException c e) = CBOutcome.ret u2)
    (hf : c.onFinalize = some (CBOutcome.ret u)) :
    secureContext c (CBOutcome.ret bv) =
      (none, [Event.successCalled EValue.unset,
              Event.errorCalled (markException c e), Event.finalizeCalled]) := by
  simp [secureContext, contextBody, handleErrorCase, hs, hsr, he, hu, her, hf]

/-- Witness for C10 at a concrete catcher whose success observer raises. -/
theorem context_success_observer_routed_to_error_witness :
    secureContext
      { catcherId := 6,
        onSuccess := some (fun _ => CBOutcome.raiseExc (Exc.base 12 none none)),
        onError := some (fun _ => CBOutcome.ret EValue.unset),
        onFinalize := some (CBOutcome.ret EValue.unset),
        onErrorReturnAlways := EValue.errored,
        suppressRecallingOnError := true }
      (CBOutcome.ret EValue.unset) =
      (none, [Event.successCalled EValue.unset,
              Event.errorCalled (Exc.base 12 (some [6]) none),
              Event.finalizeCalled]) :=
  context_success_observer_routed_to_error
    { catcherId := 6,
      onSuccess := some (fun _ => CBOutcome.raiseExc (Exc.base 12 none none)),
      onError := some (fun _ => CBOutcome.ret EValue.unset),
      onFinalize := some (CBOutcome.ret EValue.unset),
      onErrorReturnAlways := EValue.errored,
      suppressRecallingOnError := true }
    EValue.unset EValue.unset EValue.unset
    (fun _ => CBOutcome.raiseExc (Exc.base 12 none none))
    (fun _ => CBOutcome.ret EValue.unset)
    (Exc.base 12 none none)
    rfl rfl rfl rfl rfl rfl

/-- The trace of one failing attempt with a positive decision: the attempt, the
consultation of the decision callback and the backoff sleep. -/
def failBlock (j : Nat) : List RetryEvent :=
  [RetryEvent.attemptMade j, RetryEvent.decisionAsked j true, RetryEvent.slept j]

/-- setRetryCount stores the attempt index in the __retry_count__ attribute. -/
theorem retryCount_setRetryCount (e : Exc) (n : Nat) :
    (e.setRetryCount n).retryCount = some n := by
  cases e <;> rfl

/-- When every attempt fails and every decision is positive, the loop runs all
remaining attempts and ends in the too-many-retries error. -/
theorem retryFrom_exhaust (work : Nat → CBOutcome) (dec : Exc → Nat → Bool)
    (errOf : Nat → Exc)
    (hw : ∀ i, work i = CBOutcome.raiseExc (errOf i))
    (hd : ∀ e i, dec e i = true) :
    ∀ r i, retryFrom work dec r i =
      (RetryOutcome.tooManyRetries (i + r), (List.range' i r).flatMap failBlock)
  | 0, i => by simp [retryFrom, List.range']
  | r + 1, i => by
    have ih := retryFrom_exhaust work dec errOf hw hd r (i + 1)
    rw [retryFrom, hw i]
    simp only [dispatchDecision, hd, if_true]
    rw [ih]
    have h2 : i + (r + 1) = (i + 1) + r := by omega
    simp [List.range', failBlock, h2]

/-- Claim C6: for a retry orchestration with maximum attempt count m over a
unit of work that raises on every attempt and a decision callback that always
returns true, exactly m attempts are made (indices 0 through m - 1, each
failing attempt consulting the decision callback with its attempt index), no
further attempt occurs, and the loop ends in the too-many-retries error
carrying attempt count m. -/
theorem retry_exhaustion (m : Nat) (work : Nat → CBOutcome)
    (dec : Exc → Nat → Bool) (errOf : Nat → Exc)
    (hw : ∀ i, work i = CBOutcome.raiseExc (errOf i))
    (hd : ∀ e i, dec e i = true) :
    retryLoop m work dec =
      (RetryOutcome.tooManyRetries m, (List.range m).flatMap failBlock) ∧
    (∀ j, RetryEvent.attemptMade j ∈ (retryLoop m work dec).2 ↔ j < m) ∧
    (∀ j, RetryEvent.decisionAsked j true ∈ (retryLoop m work dec).2 ↔ j < m) := by
  have h := retryFrom_exhaust work dec errOf hw hd m 0
  have htr : retryLoop m work dec =
      (RetryOutcome.tooManyRetries m, (List.range m).flatMap failBlock) := by
    unfold retryLoop
    rw [h, List.range_eq_range']
    simp
  refine ⟨htr, ?_, ?_⟩
  · intro j
    rw [htr]
    simp [List.mem_flatMap, failBlock, List.mem_range]
  · intro j
    rw [htr]
    simp [List.mem_flatMap, failBlock, List.mem_range]

/-- Witness for C6 with max_retries = 2, the exhaustion scenario of the spec. -/
theorem retry_exhaustion_witness :
    retryLoop 2 (fun i => CBOutcome.raiseExc (Exc.base i none none))
        (fun _ _ => true) =
      (RetryOutcome.tooManyRetries 2, (List.range 2).flatMap failBlock) :=
  (retry_exhaustion 2 (fun i => CBOutcome.raiseExc (Exc.base i none none))
    (fun _ _ => true) (fun i => Exc.base i none none)
    (fun _ => rfl) (fun _ _ => rfl)).1

/-- When attempts up to k fail, the decisions before k are positive and the
decision at k is negative, the loop aborts at attempt k. -/
theorem retryFrom_abort (work : Nat → CBOutcome) (dec : Exc → Nat → Bool)
    (errOf : Nat → Exc) (k : Nat)
    (hw : ∀ i, i ≤ k → work i = CBOutcome.raiseExc (errOf i))
    (hdT : ∀ i, i < k → dec (errOf i) i = true)
    (hdF : dec (errOf k) k = false) :
    ∀ r i, i ≤ k → k < i + r →
      retryFrom work dec r i =
        (RetryOutcome.abortRaise ((errOf k).setRetryCount k),
         (List.range' i (k - i)).flatMap failBlock ++
           [RetryEvent.attemptMade k, RetryEvent.decisionAsked k false])
  | 0, i, hik, hki => by omega
  | r + 1, i, hik, hki => by
    rcases Nat.lt_or_ge i k with hlt | hge
    · have ih := retryFrom_abort work dec errOf k hw hdT hdF r (i + 1)
        (by omega) (by omega)
      rw [retryFrom, hw i hik]
      simp only [dispatchDecision, hdT i hlt, if_true]
      rw [ih]
      have h2 : k - i = (k - (i + 1)) + 1 := by omega
      simp [h2, List.range', failBlock]
    · have hik2 : i = k := by omega
      subst hik2
      rw [retryFrom, hw i (Nat.le_refl i)]
      simp only [dispatchDecision, hdF]
      simp [Nat.sub_self, List.range']

/-- Claim C7: when the decision callback returns false on the failing attempt
with index k (after positive decisions on the earlier failing attempts), the
retry loop fails immediately by raising the attempt error with
__retry_count__ = k as its retry metadata: no backoff sleep occurs after that
decision and no further attempt is made (the trace ends with the negative
decision at k). -/
theorem retry_abort_on_false_decision (m k : Nat) (work : Nat → CBOutcome)
    (dec : Exc → Nat → Bool) (errOf : Nat → Exc) (hk : k < m)
    (hw : ∀ i, i ≤ k → work i = CBOutcome.raiseExc (errOf i))
    (hdT : ∀ i, i < k → dec (errOf i) i = true)
    (hdF : dec (errOf k) k = false) :
    retryLoop m work dec =
      (RetryOutcome.abortRaise ((errOf k).setRetryCount k),
       (List.range k).flatMap failBlock ++
         [RetryEvent.attemptMade k, RetryEvent.decisionAsked k false]) ∧
    ((errOf k).setRetryCount k).retryCount = some k ∧
    (∀ j, RetryEvent.slept j ∈ (retryLoop m work dec).2 ↔ j < k) ∧
    (∀ j, RetryEvent.attemptMade j ∈ (retryLoop m work dec).2 ↔ j ≤ k) := by
  have h := retryFrom_abort work dec errOf k hw hdT hdF m 0 (by omega) (by omega)
  have htr : retryLoop m work dec =
      (RetryOutcome.abortRaise ((errOf k).setRetryCount k),
       (List.range k).flatMap failBlock ++
         [RetryEvent.attemptMade k, RetryEvent.decisionAsked k false]) := by
    unfold retryLoop
    rw [h, List.range_eq_range']
    simp
  refine ⟨htr, retryCount_setRetryCount _ _, ?_, ?_⟩
  · intro j
    rw [htr]
    simp [List.mem_append, List.mem_flatMap, failBlock, List.mem_range]
  · intro j
    rw [htr]
    simp only [List.mem_append, List.mem_flatMap, failBlock, List.mem_range,
      List.mem_cons, List.not_mem_nil]
    constructor
    · rintro (⟨i, hi, h1 | h1 | h1⟩ | h1 | h1 | h1) <;> simp_all <;> omega

    · intro hj
      rcases Nat.lt_or_ge j k with hlt | hge
      · exact Or.inl ⟨j, hlt, Or.inl rfl⟩
      · have : j = k := by omega
        subst this
        exact Or.inr (Or.inl rfl)

/-- Witness for C7: decisions positive on attempts 0 and 1 and negative on
attempt 2, the early-abort scenario of the spec. -/
theorem retry_abort_on_false_decision_witness :
    retryLoop 10 (fun i => CBOutcome.raiseExc (Exc.base i none none))
        (fun _ i => decide (i < 2)) =
      (RetryOutcome.abortRaise (Exc.base 2 none (some 2)),
       (List.range 2).flatMap failBlock ++
         [RetryEvent.attemptMade 2, RetryEvent.decisionAsked 2 false]) :=
  (retry_abort_on_false_decision 10 2
    (fun i => CBOutcome.raiseExc (Exc.base i none none))
    (fun _ i => decide (i < 2)) (fun i => Exc.base i none none)
    (by omega) (fun _ _ => rfl) (fun i h => decide_eq_true h) rfl).1

/-- A lookup falls through an association list holding no pair with the key. -/
theorem lookup_eq_none_of_keys_ne (k : String) :
    ∀ (l : List (String × EValue)), (∀ x ∈ l, x.1 ≠ k) → l.lookup k = none
  | [], _ => rfl
  | (pk, pv) :: t, h => by
    have hne : pk ≠ k := h (pk, pv) (List.mem_cons_self _ _)
    have hpk : (k == pk) = false := by
      simp
      exact fun hh => hne hh.symm
    simp only [List.lookup, hpk]
    exact lookup_eq_none_of_keys_ne k t (fun x hx => h x (List.mem_cons_of_mem _ hx))

/-- A lookup continues in the right part when the left part misses the key. -/
theorem lookup_append_of_none (k : String) :
    ∀ (l1 l2 : List (String × EValue)), l1.lookup k = none →
      (l1 ++ l2).lookup k = l2.lookup k
  | [], _, _ => rfl
  | (pk, pv) :: t, l2, h => by
    cases hpk : (k == pk) with
    | true => simp [List.lookup, hpk] at h
    | false =>
      simp only [List.lookup, hpk] at h
      simp only [List.cons_append, List.lookup, hpk]
      exact lookup_append_of_none k t l2 h

/-- A lookup stays in the left part when the left part has the key. -/
theorem lookup_append_of_some (k : String) (w : EValue) :
    ∀ (l1 l2 : List (String × EValue)), l1.lookup k = some w →
      (l1 ++ l2).lookup k = some w
  | [], _, h => by simp [List.lookup] at h
  | (pk, pv) :: t, l2, h => by
    cases hpk : (k == pk) with
    | true =>
      simp only [List.lookup, hpk] at h
      simp only [List.cons_append, List.lookup, hpk]
      exact h
    | false =>
      simp only [List.lookup, hpk] at h
      simp only [List.cons_append, List.lookup, hpk]
      exact lookup_append_of_some k w t l2 h

/-- A lookup only sees pairs carrying its key, so a filter keeping all pairs
with that key preserves the lookup. -/
theorem lookup_filter_keep (k : String) (q : String × EValue → Bool) :
    ∀ (l : List (String × EValue)), (∀ x ∈ l, x.1 = k → q x = true) →
      (l.filter q).lookup k = l.lookup k
  | [], _ => rfl
  | (pk, pv) :: t, h => by
    have ht : ∀ x ∈ t, x.1 = k → q x = true :=
      fun x hx => h x (List.mem_cons_of_mem _ hx)
    cases hpk : (k == pk) with
    | true =>
      have hq : q (pk, pv) = true :=
        h (pk, pv) (List.mem_cons_self _ _) (eq_of_beq hpk).symm
      simp [List.filter_cons, hq, List.lookup, hpk]
    | false =>
      cases hq : q (pk, pv) with
      | true => simp [List.filter_cons, hq, List.lookup, hpk,
          lookup_filter_keep k q t ht]
      | false => simp [List.filter_cons, hq, List.lookup, hpk,
          lookup_filter_keep k q t ht]

/-- Claim C5 counterexample (the scenario of unittests/test_callback_errors.py:
a zero-parameter callback whose expected contract was auto-set to one
parameter): the assembled argument list satisfies the declared expected
signature, yet the invocation fails and the underlying function is not called,
because Callback.__call__ validates against the actual signature of the
underlying function, not against the expected contract. -/
theorem callback_validates_actual_counterexample :
    callbackCall
      { name := "on_finalize_wrong_signature", expectedParams := ["hello"],
        actualParams := [], argsToInject := [], kwargsToInject := [] }
      [EValue.val 1] [] =
      CallResult.mismatch (mismatchMsg
        { name := "on_finalize_wrong_signature", expectedParams := ["hello"],
          actualParams := [], argsToInject := [], kwargsToInject := [] }) ∧
    bindSig ["hello"] [EValue.val 1] [] = some [EValue.val 1] := by
  constructor <;> rfl

/-- Claim C5 amended: for an invocation of a Callback with one recorded
positional injection (i, v) and one recorded named injection (k0, w0), the
positional value is inserted at index i shifting later positional arguments
right, the named value overwrites a same-named keyword argument and leaves
other keys unchanged, and the fully assembled argument list is validated
against the ACTUAL signature of the underlying function (the declared expected
contract appears only in the error message): on validation failure the
invocation fails with the mismatch error and the underlying function is not
called, otherwise the underlying function is called with the bound assembled
arguments. -/
theorem callback_invoke_spec (cb : CallbackM) (args : List EValue)
    (kwargs : List (String × EValue)) (i : Nat) (v : EValue)
    (k0 : String) (w0 : EValue)
    (hargs : cb.argsToInject = [(i, v)]) (hi : i ≤ args.length)
    (hkw : cb.kwargsToInject = [(k0, w0)]) :
    (assembledArgs cb args).length = args.length + 1 ∧
    (assembledArgs cb args)[i]? = some v ∧
    (∀ j, j < i → (assembledArgs cb args)[j]? = args[j]?) ∧
    (∀ j, i ≤ j → (assembledArgs cb args)[j + 1]? = args[j]?) ∧
    (assembledKwargs cb kwargs).lookup k0 = some w0 ∧
    (∀ k, k ≠ k0 → (assembledKwargs cb kwargs).lookup k = kwargs.lookup k) ∧
    (∀ bound,
      bindSig cb.actualParams (assembledArgs cb args) (assembledKwargs cb kwargs) =
          some bound →
        callbackCall cb args kwargs = CallResult.called bound) ∧
    (bindSig cb.actualParams (assembledArgs cb args) (assembledKwargs cb kwargs) =
        none →
      callbackCall cb args kwargs = CallResult.mismatch (mismatchMsg cb)) := by
  have ha : assembledArgs cb args = args.take i ++ v :: args.drop i := by
    simp [assembledArgs, hargs, pyInsert]
  have hlen : (args.take i).length = i := by
    rw [List.length_take]; omega
  refine ⟨?_, ?_, ?_, ?_, ?_, ?_, ?_, ?_⟩
  · rw [ha]
    simp only [List.length_append, List.length_cons, List.length_drop, hlen]
    omega
  · rw [ha, List.getElem?_append_right (by simp [hlen])]
    simp [hlen]
  · intro j hj
    rw [ha, List.getElem?_append_left (by rw [hlen]; omega)]
    exact List.getElem?_take_of_lt hj
  · intro j hj
    rw [ha, List.getElem?_append_right (by simp [hlen]; omega)]
    simp only [hlen]
    have h2 : j + 1 - i = (j - i) + 1 := by omega
    rw [h2]
    simp only [List.getElem?_cons_succ, List.getElem?_drop]
    congr 1
    omega
  · have hnone :
        (kwargs.filter
          (fun p => !(((cb.kwargsToInject.map Prod.fst)).contains p.1))).lookup k0 =
          none := by
      apply lookup_eq_none_of_keys_ne
      intro x hx
      rw [List.mem_filter] at hx
      intro hk
      have := hx.2
      rw [hk, hkw] at this
      simp at this
    unfold assembledKwargs pyUpdate
    rw [lookup_append_of_none _ _ _ hnone, hkw]
    simp [List.lookup]
  · intro k hk
    have hkeep :
        (kwargs.filter
          (fun p => !(((cb.kwargsToInject.map Prod.fst)).contains p.1))).lookup k =
          kwargs.lookup k := by
      apply lookup_filter_keep
      intro x hx hxk
      rw [hxk, hkw]
      simp [hk]
    have hb : (k == k0) = false := by
      simp
      exact hk
    unfold assembledKwargs pyUpdate
    cases hlk : kwargs.lookup k with
    | none =>
      rw [lookup_append_of_none _ _ _ (hkeep.trans hlk), hkw]
      simp [List.lookup, hb]
    | some w =>
      rw [lookup_append_of_some _ _ _ _ (hkeep.trans hlk)]
  · intro bound hb
    simp [callbackCall, hb]
  · intro hb
    simp [callbackCall, hb]

/-- Witness for the amended C5: a callback with an injected error value at
index 0 and an injected keyword, invoked with one positional argument. -/
theorem callback_invoke_spec_witness :
    ({ name := "cb", expectedParams := ["error", "hello", "mode"],
       actualParams := ["error", "hello", "mode"],
       argsToInject := [(0, EValue.val 9)],
       kwargsToInject := [("mode", EValue.val 3)] } : CallbackM).argsToInject =
      [(0, EValue.val 9)] ∧
    (0 : Nat) ≤ ([EValue.val 1] : List EValue).length ∧
    callbackCall
      { name := "cb", expectedParams := ["error", "hello", "mode"],
        actualParams := ["error", "hello", "mode"],
        argsToInject := [(0, EValue.val 9)],
        kwargsToInject := [("mode", EValue.val 3)] }
      [EValue.val 1] [] =
      CallResult.called [EValue.val 9, EValue.val 1, EValue.val 3] :=
  ⟨rfl, by omega,
    (callback_invoke_spec
      { name := "cb", expectedParams := ["error", "hello", "mode"],
        actualParams := ["error", "hello", "mode"],
        argsToInject := [(0, EValue.val 9)],
        kwargsToInject := [("mode", EValue.val 3)] }
      [EValue.val 1] [] 0 (EValue.val 9) "mode" (EValue.val 3)
      rfl (by omega) rfl).2.2.2.2.2.2.1
      [EValue.val 9, EValue.val 1, EValue.val 3] rfl⟩

/-- Claim C9 (the failing input of unittests/test_callback_errors.py): for the
finalize callback named on_finalize_wrong_signature with no parameters and an
expected contract of one parameter, invoked with one argument, the mismatch IS
raised (never swallowed) and its message names the callback and contains the
expected one-parameter shape, but it does NOT contain the actual zero-parameter
shape, although the unit tests of the repository assert that both shapes occur
in the message. -/
theorem mismatch_message_lacks_actual_shape :
    callbackCall
      { name := "on_finalize_wrong_signature", expectedParams := ["hello"],
        actualParams := [], argsToInject := [], kwargsToInject := [] }
      [EValue.val 1] [] =
      CallResult.mismatch (mismatchMsg
        { name := "on_finalize_wrong_signature", expectedParams := ["hello"],
          actualParams := [], argsToInject := [], kwargsToInject := [] }) ∧
    strHasSub
      (mismatchMsg
        { name := "on_finalize_wrong_signature", expectedParams := ["hello"],
          actualParams := [], argsToInject := [], kwargsToInject := [] })
      "on_finalize_wrong_signature" = true ∧
    strHasSub
      (mismatchMsg
        { name := "on_finalize_wrong_signature", expectedParams := ["hello"],
          actualParams := [], argsToInject := [], kwargsToInject := [] })
      (sigStr ["hello"]) = true ∧
    strHasSub
      (mismatchMsg
        { name := "on_finalize_wrong_signature", expectedParams := ["hello"],
          actualParams := [], argsToInject := [], kwargsToInject := [] })
      ("on_finalize_wrong_signature" ++ sigStr []) = false := by
  refine ⟨rfl, ?_, ?_, ?_⟩ <;> decide

end Seviper
